import Mathlib

set_option maxRecDepth 16000

/-!
Verification of the Strategy Generation & Validation pipeline of `src/app.py`
(a Streamlit app calling an LLM endpoint, parsing the JSON response with
Python's `json.loads`, validating it with pydantic models `SalesAngle` and
`StrategyOutput`, storing the result in session state, and rendering a fixed
Shopify "hero section" JSON template).

The embedding below models:
  - the JSON value space and Python's `json.loads` (a fuel-bounded
    recursive-descent parser faithful to the `json` module's grammar,
    including the `NaN` / `Infinity` / `-Infinity` constants accepted by
    default, whitespace handling, string escapes with `\uXXXX` and
    surrogate pairs, and rejection of unescaped control characters);
  - pydantic's `model_validate` for the two models (required fields, lax
    string typing where only JSON strings validate as `str`, extra fields
    ignored, nested list validation);
  - the generate-button handler of lines 96-154 (error paths leave session
    state untouched; success replaces it wholly);
  - the prompt f-string of lines 108-122;
  - the dict comprehension of lines 140-142 (Python dict semantics:
    insertion order, last write wins);
  - the Shopify hero-section template of lines 192-224.

Notes on fidelity:
  - Machine strings are Lean `String`s (sequences of Unicode scalar values),
    matching Python `str` except that Python strings may hold lone
    surrogates; a lone surrogate escape in JSON input is mapped to U+FFFD,
    which no claim depends on.
  - pydantic aggregates all validation errors into one `ValidationError`;
    the model here reports the first violation.  Every claim concerns only
    the kind of the error (schema violation vs malformed output) and the
    success value, which agree with the aggregate behavior.
  - The parser uses fuel parameters only to establish termination: string
    scanning and the element loops consume at least one input character per
    fuel unit and are seeded with `length + 1`, and the value parser's fuel
    bounds only nesting depth and is seeded with `10 * length + 10`; fuel
    therefore never causes a spurious failure.
-/

/-- A JSON value as produced by Python's `json.loads`: numbers keep their
source lexeme (their numeric value is irrelevant to every schema check in
the program), objects keep their key/value pairs in source order, and
duplicate keys are resolved last-wins by `dictGet` below, matching Python
dict construction. -/
inductive Json where
  | null : Json
  | bool (b : Bool) : Json
  | num (lexeme : String) : Json
  | str (s : String) : Json
  | arr (elems : List Json) : Json
  | obj (pairs : List (String × Json)) : Json

/-- JSON whitespace, as in Python's `json` module. -/
def isJsonWs (c : Char) : Bool :=
  c = ' ' || c = '\t' || c = '\n' || c = '\r'

/-- Skip leading JSON whitespace. -/
def skipWs : List Char → List Char
  | [] => []
  | c :: cs => if isJsonWs c then skipWs cs else c :: cs

/-- Value of one hexadecimal digit. -/
def hexVal (c : Char) : Option Nat :=
  if '0' ≤ c ∧ c ≤ '9' then some (c.toNat - 48)
  else if 'a' ≤ c ∧ c ≤ 'f' then some (c.toNat - 87)
  else if 'A' ≤ c ∧ c ≤ 'F' then some (c.toNat - 55)
  else none

/-- Value of a four-digit hexadecimal escape. -/
def hex4 (a b c d : Char) : Option Nat :=
  match hexVal a, hexVal b, hexVal c, hexVal d with
  | some x, some y, some z, some w => some (((x * 16 + y) * 16 + z) * 16 + w)
  | _, _, _, _ => none

/-- A code unit from a `\uXXXX` escape as a character.  Python strings can
hold lone surrogates; Lean strings cannot, so a lone surrogate becomes
U+FFFD (no claim depends on the resulting character). -/
def uCharOf (n : Nat) : Char :=
  if 0xD800 ≤ n ∧ n ≤ 0xDFFF then '�' else Char.ofNat n

/-- Body of a JSON string literal after the opening quote, as scanned by
`json.scanner` in strict mode: ends at an unescaped quote, rejects
unescaped control characters, handles the eight short escapes and
`\uXXXX` with surrogate-pair combination.  The fuel argument only serves
termination: every step consumes at least one input character, so any fuel
exceeding the input length is enough (callers pass `length + 1`). -/
def parseStringBody : Nat → List Char → Option (List Char × List Char)
  | 0, _ => none
  | fuel + 1, cs =>
    match cs with
    | [] => none
    | c :: rest =>
      if c = '"' then some ([], rest)
      else if c = '\\' then
        match rest with
        | [] => none
        | e :: r =>
          if e = '"' then (parseStringBody fuel r).map (fun p => ('"' :: p.1, p.2))
          else if e = '\\' then (parseStringBody fuel r).map (fun p => ('\\' :: p.1, p.2))
          else if e = '/' then (parseStringBody fuel r).map (fun p => ('/' :: p.1, p.2))
          else if e = 'b' then (parseStringBody fuel r).map (fun p => ('\x08' :: p.1, p.2))
          else if e = 'f' then (parseStringBody fuel r).map (fun p => ('\x0c' :: p.1, p.2))
          else if e = 'n' then (parseStringBody fuel r).map (fun p => ('\n' :: p.1, p.2))
          else if e = 'r' then (parseStringBody fuel r).map (fun p => ('\r' :: p.1, p.2))
          else if e = 't' then (parseStringBody fuel r).map (fun p => ('\t' :: p.1, p.2))
          else if e = 'u' then
            match r with
            | a :: b :: c2 :: d :: r2 =>
              match hex4 a b c2 d with
              | none => none
              | some n =>
                if 0xD800 ≤ n ∧ n ≤ 0xDBFF then
                  match r2 with
                  | '\\' :: 'u' :: a2 :: b2 :: c3 :: d2 :: r3 =>
                    match hex4 a2 b2 c3 d2 with
                    | some m =>
                      if 0xDC00 ≤ m ∧ m ≤ 0xDFFF then
                        (parseStringBody fuel r3).map
                          (fun p =>
                            (Char.ofNat (0x10000 + (n - 0xD800) * 0x400 + (m - 0xDC00)) :: p.1,
                             p.2))
                      else
                        (parseStringBody fuel ('\\' :: 'u' :: a2 :: b2 :: c3 :: d2 :: r3)).map
                          (fun p => (uCharOf n :: p.1, p.2))
                    | none =>
                        (parseStringBody fuel ('\\' :: 'u' :: a2 :: b2 :: c3 :: d2 :: r3)).map
                          (fun p => (uCharOf n :: p.1, p.2))
                  | _ => (parseStringBody fuel r2).map (fun p => (uCharOf n :: p.1, p.2))
                else (parseStringBody fuel r2).map (fun p => (uCharOf n :: p.1, p.2))
            | _ => none
          else none
      else if c.toNat < 0x20 then none
      else (parseStringBody fuel rest).map (fun p => (c :: p.1, p.2))

/-- Longest run of decimal digits at the front. -/
def spanDigits : List Char → List Char × List Char
  | [] => ([], [])
  | c :: cs =>
    if c.isDigit then
      let p := spanDigits cs
      (c :: p.1, p.2)
    else ([], c :: cs)

/-- Integer part of the JSON number grammar: `0` or a nonzero digit followed
by digits (matching the `json` module's NUMBER_RE). -/
def parseIntPart : List Char → Option (List Char × List Char)
  | [] => none
  | c :: cs =>
    if c = '0' then some (['0'], cs)
    else if c.isDigit then
      let p := spanDigits cs
      some (c :: p.1, p.2)
    else none

/-- Optional fractional part `.digits` (empty when absent or ill-formed,
leaving the input as is, as regex backtracking does). -/
def parseFracPart : List Char → List Char × List Char
  | '.' :: cs =>
    match spanDigits cs with
    | ([], _) => ([], '.' :: cs)
    | (d, r) => ('.' :: d, r)
  | cs => ([], cs)

/-- Optional exponent part `[eE][+-]?digits` (empty when absent or
ill-formed). -/
def parseExpPart : List Char → List Char × List Char
  | e :: cs =>
    if e = 'e' ∨ e = 'E' then
      match cs with
      | s :: cs2 =>
        if s = '+' ∨ s = '-' then
          match spanDigits cs2 with
          | ([], _) => ([], e :: cs)
          | (d, r) => ([e, s] ++ d, r)
        else
          match spanDigits cs with
          | ([], _) => ([], e :: cs)
          | (d, r) => (e :: d, r)
      | [] => ([], [e])
    else ([], e :: cs)
  | [] => ([], [])

/-- A JSON number at the front of the input, returning its lexeme. -/
def parseNumber (cs : List Char) : Option (Json × List Char) :=
  let p := match cs with
           | '-' :: t => (['-'], t)
           | _ => (([] : List Char), cs)
  match parseIntPart p.2 with
  | none => none
  | some (ip, cs2) =>
    let f := parseFracPart cs2
    let e := parseExpPart f.2
    some (Json.num ⟨p.1 ++ ip ++ f.1 ++ e.1⟩, e.2)

/-- Consume an expected literal character sequence. -/
def dropLit : List Char → List Char → Option (List Char)
  | [], cs => some cs
  | l :: ls, c :: cs => if c = l then dropLit ls cs else none
  | _ :: _, [] => none

/-- Comma-separated array elements up to the closing bracket, per
`json.scanner.JSONArray` (the caller has consumed `[` and any leading
whitespace and ruled out the empty array).  `pv` parses one element; the
fuel only serves termination: every iteration consumes at least one input
character, so any fuel exceeding the input length is enough. -/
def arrItemsLoop (pv : List Char → Option (Json × List Char)) :
    Nat → List Char → Option (List Json × List Char)
  | 0, _ => none
  | fuel + 1, cs =>
    match pv cs with
    | none => none
    | some (v, r) =>
      match skipWs r with
      | [] => none
      | c :: r2 =>
        if c = ',' then (arrItemsLoop pv fuel (skipWs r2)).map (fun p => (v :: p.1, p.2))
        else if c = ']' then some ([v], r2)
        else none

/-- Comma-separated `"key": value` members up to the closing brace, per
`json.scanner.JSONObject` (the caller has consumed the brace and any
leading whitespace and ruled out the empty object). -/
def objItemsLoop (pv : List Char → Option (Json × List Char)) :
    Nat → List Char → Option (List (String × Json) × List Char)
  | 0, _ => none
  | fuel + 1, cs =>
    match cs with
    | [] => none
    | c :: r =>
      if c = '"' then
        match parseStringBody (r.length + 1) r with
        | none => none
        | some (kcs, r1) =>
          match skipWs r1 with
          | [] => none
          | c2 :: r2 =>
            if c2 = ':' then
              match pv (skipWs r2) with
              | none => none
              | some (v, r3) =>
                match skipWs r3 with
                | [] => none
                | c3 :: r4 =>
                  if c3 = ',' then
                    (objItemsLoop pv fuel (skipWs r4)).map
                      (fun p => ((⟨kcs⟩, v) :: p.1, p.2))
                  else if c3 = '\x7d' then some ([(⟨kcs⟩, v)], r4)
                  else none
            else none
      else none

/-- One JSON value at the front of the input, per `json.scanner.scan_once`:
strings, objects, arrays, the literals `null`/`true`/`false`, the constants
`NaN`/`Infinity`/`-Infinity` (accepted by `json.loads` by default), and
numbers.  The fuel argument only bounds nesting depth; element loops are
fueled by their own input length. -/
def parseJsonValue : Nat → List Char → Option (Json × List Char)
  | 0, _ => none
  | fuel + 1, cs =>
    match cs with
    | [] => none
    | c :: r =>
      if c = '"' then (parseStringBody (r.length + 1) r).map (fun p => (Json.str ⟨p.1⟩, p.2))
      else if c = '\x7b' then
        match skipWs r with
        | [] => none
        | c2 :: r2 =>
          if c2 = '\x7d' then some (Json.obj [], r2)
          else
            (objItemsLoop (parseJsonValue fuel) ((c2 :: r2).length + 1) (c2 :: r2)).map
              (fun p => (Json.obj p.1, p.2))
      else if c = '[' then
        match skipWs r with
        | [] => none
        | c2 :: r2 =>
          if c2 = ']' then some (Json.arr [], r2)
          else
            (arrItemsLoop (parseJsonValue fuel) ((c2 :: r2).length + 1) (c2 :: r2)).map
              (fun p => (Json.arr p.1, p.2))
      else if c = 'n' then (dropLit ['u', 'l', 'l'] r).map (fun t => (Json.null, t))
      else if c = 't' then (dropLit ['r', 'u', 'e'] r).map (fun t => (Json.bool true, t))
      else if c = 'f' then (dropLit ['a', 'l', 's', 'e'] r).map (fun t => (Json.bool false, t))
      else if c = 'N' then (dropLit ['a', 'N'] r).map (fun t => (Json.num ⟨['N', 'a', 'N']⟩, t))
      else if c = 'I' then
        (dropLit ['n', 'f', 'i', 'n', 'i', 't', 'y'] r).map
          (fun t => (Json.num ⟨['I', 'n', 'f', 'i', 'n', 'i', 't', 'y']⟩, t))
      else if c = '-' then
        match dropLit ['I', 'n', 'f', 'i', 'n', 'i', 't', 'y'] r with
        | some t => some (Json.num ⟨['-', 'I', 'n', 'f', 'i', 'n', 'i', 't', 'y']⟩, t)
        | none => parseNumber cs
      else parseNumber cs

/-- Python's `json.loads` on a string: skip leading whitespace, scan one
value, skip trailing whitespace, and require the input to be exhausted
("Extra data" otherwise).  `none` models a raised `json.JSONDecodeError`.
The fuel bounds only the nesting depth, which the input length strictly
dominates, so it never fails for lack of fuel. -/
def parseJson (s : String) : Option Json :=
  match parseJsonValue (10 * s.length + 10) (skipWs s.data) with
  | some (v, rest) =>
    match skipWs rest with
    | [] => some v
    | _ => none
  | none => none

/-- Lookup in a parsed JSON object.  Python's `json.loads` builds a `dict`,
so a duplicated key resolves to its last occurrence; the pair list is
searched from the rear. -/
def dictGet (k : String) : List (String × Json) → Option Json
  | [] => none
  | p :: rest =>
    match dictGet k rest with
    | some v => some v
    | none => if p.1 = k then some p.2 else none

/-- The pydantic model of lines 9-13: a single sales angle (avatar) with a
persuasive paragraph.  All three fields are required `str` fields with no
further constraints. -/
structure SalesAngle where
  avatar_name : String
  pain_point_addressed : String
  persuasive_copy : String
deriving DecidableEq, Repr

/-- The pydantic model of lines 15-18: the complete marketing strategy
output.  Both fields are required, with no length constraints. -/
structure StrategyOutput where
  main_pain_points : List String
  sales_angles : List SalesAngle
deriving DecidableEq, Repr

/-- Validation of a `str` field under pydantic v2 lax mode: of the values
`json.loads` can produce, exactly JSON strings validate (numbers, booleans,
null, lists and objects are not coerced).  The error detail carries the
field path. -/
def validateStr (path : String) : Json → Except String String
  | .str s => Except.ok s
  | _ => Except.error (path ++ ": Input should be a valid string")

/-- Validation of the elements of a `List[str]` field. -/
def validateStrElems (path : String) : List Json → Except String (List String)
  | [] => Except.ok []
  | v :: vs =>
    match validateStr path v with
    | Except.error e => Except.error e
    | Except.ok s =>
      match validateStrElems path vs with
      | Except.error e => Except.error e
      | Except.ok ss => Except.ok (s :: ss)

/-- Validation of a `List[str]` field: the value must be a JSON array and
every element a JSON string. -/
def validateStrList (path : String) : Json → Except String (List String)
  | .arr vs => validateStrElems path vs
  | _ => Except.error (path ++ ": Input should be a valid list")

/-- A required field of an object: absence is the pydantic "Field required"
error. -/
def requiredField (ps : List (String × Json)) (k : String) : Except String Json :=
  match dictGet k ps with
  | none => Except.error (k ++ ": Field required")
  | some v => Except.ok v

/-- Pydantic validation of one `SalesAngle` from a parsed JSON value:
the value must be a dict, the three declared fields must be present and be
strings, and unknown keys are ignored (the default `extra='ignore'`
behavior).  pydantic aggregates all violations into one `ValidationError`;
this model reports the first, which every claim treats the same way. -/
def SalesAngle.model_validate : Json → Except String SalesAngle
  | .obj ps =>
    match requiredField ps ("avatar_name") with
    | Except.error e => Except.error e
    | Except.ok v1 =>
      match validateStr ("avatar_name") v1 with
      | Except.error e => Except.error e
      | Except.ok av =>
        match requiredField ps ("pain_point_addressed") with
        | Except.error e => Except.error e
        | Except.ok v2 =>
          match validateStr ("pain_point_addressed") v2 with
          | Except.error e => Except.error e
          | Except.ok pp =>
            match requiredField ps ("persuasive_copy") with
            | Except.error e => Except.error e
            | Except.ok v3 =>
              match validateStr ("persuasive_copy") v3 with
              | Except.error e => Except.error e
              | Except.ok pc => Except.ok ⟨av, pp, pc⟩
  | _ => Except.error ("sales_angles: Input should be a valid dictionary")

/-- Validation of the elements of the `List[SalesAngle]` field. -/
def validateAngleElems : List Json → Except String (List SalesAngle)
  | [] => Except.ok []
  | v :: vs =>
    match SalesAngle.model_validate v with
    | Except.error e => Except.error e
    | Except.ok a =>
      match validateAngleElems vs with
      | Except.error e => Except.error e
      | Except.ok as2 => Except.ok (a :: as2)

/-- Validation of the `List[SalesAngle]` field: a JSON array whose every
element validates as a `SalesAngle`. -/
def validateAngleList : Json → Except String (List SalesAngle)
  | .arr vs => validateAngleElems vs
  | _ => Except.error ("sales_angles: Input should be a valid list")

/-- `StrategyOutput.model_validate` (line 137): the parsed value must be a
dict carrying the two required fields with the declared types; extra keys
are ignored.  Neither list is required to be non-empty and no string is
required to be non-empty, since the pydantic fields carry no constraints
beyond their types. -/
def StrategyOutput.model_validate : Json → Except String StrategyOutput
  | .obj ps =>
    match requiredField ps ("main_pain_points") with
    | Except.error e => Except.error e
    | Except.ok v1 =>
      match validateStrList ("main_pain_points") v1 with
      | Except.error e => Except.error e
      | Except.ok mpp =>
        match requiredField ps ("sales_angles") with
        | Except.error e => Except.error e
        | Except.ok v2 =>
          match validateAngleList v2 with
          | Except.error e => Except.error e
          | Except.ok sa => Except.ok ⟨mpp, sa⟩
  | _ => Except.error ("Input should be a valid dictionary")

/-- The two error kinds the Response Validator can produce (the two
`except` arms of lines 146-151): `json.JSONDecodeError` from `json.loads`
and `ValidationError` from `model_validate`. -/
inductive ValidatorError where
  | malformedOutput (raw : String) : ValidatorError
  | schemaViolation (detail : String) : ValidatorError
deriving DecidableEq, Repr

/-- The Response Validator (lines 136-137 with the handlers of lines
146-151): parse the raw completion text with `json.loads`, then validate
with `StrategyOutput.model_validate`.  A parse failure is the distinct
`MalformedOutput` error carrying the raw text; a validation failure is the
distinct `SchemaViolation` error carrying the violation detail. -/
def validateResponse (raw : String) : Except ValidatorError StrategyOutput :=
  match parseJson raw with
  | none => Except.error (ValidatorError.malformedOutput raw)
  | some j =>
    match StrategyOutput.model_validate j with
    | Except.error d => Except.error (ValidatorError.schemaViolation d)
    | Except.ok so => Except.ok so

/-- Python dict assignment `d[k] = v` on an insertion-ordered association
list: an existing key keeps its position and gets the new value, a new key
is appended. -/
def pyInsert (m : List (String × SalesAngle)) (k : String) (v : SalesAngle) :
    List (String × SalesAngle) :=
  match m with
  | [] => [(k, v)]
  | p :: rest => if p.1 = k then (k, v) :: rest else p :: pyInsert rest k v

/-- Python dict lookup `d[k]` / `d.get(k)` (keys are unique in the
representation built by `pyInsert`, so first match suffices). -/
def pyGet (m : List (String × SalesAngle)) (k : String) : Option SalesAngle :=
  match m with
  | [] => none
  | p :: rest => if p.1 = k then some p.2 else pyGet rest k

/-- The dict comprehension of lines 140-142:
`{angle.avatar_name: angle for angle in strategy_output.sales_angles}` —
iterate `sales_angles` in order, inserting/overwriting by `avatar_name`. -/
def anglesDict (sales_angles : List SalesAngle) : List (String × SalesAngle) :=
  sales_angles.foldl (fun m angle => pyInsert m angle.avatar_name angle) []

/-- The Strategy Store: the `'strategy'` and `'angles'` entries of
`st.session_state` (absent before the first successful generation). -/
structure SessionState where
  strategy : Option StrategyOutput
  angles : List (String × SalesAngle)
deriving DecidableEq, Repr

/-- Session state before any successful generation: neither key present. -/
def SessionState.initial : SessionState := ⟨none, []⟩

/-- Outcome of the completion call (`client.chat.completions.create`):
either the raw text of the response, or a transport/auth/provider error
raised as a generic exception. -/
inductive CompletionResult where
  | ok (content : String) : CompletionResult
  | exc (detail : String) : CompletionResult
deriving DecidableEq, Repr

/-- What the generate-button handler reports to the user: one of the four
`st.error` paths or the `st.success` path of lines 98-154. -/
inductive GenOutcome where
  | missingInput : GenOutcome
  | transportFailure (detail : String) : GenOutcome
  | malformedOutput : GenOutcome
  | schemaViolation (detail : String) : GenOutcome
  | success : GenOutcome
deriving DecidableEq, Repr

/-- The generate-button handler (lines 96-154), given the prior session
state, the two inputs and the completion outcome: empty inputs abort before
any call; a raised exception aborts reporting the transport failure;
`json.loads` failure reports `MalformedOutput`; `ValidationError` reports
`SchemaViolation`; only on success are `st.session_state['strategy']` and
`st.session_state['angles']` assigned (lines 139-142), replacing the prior
state wholly. -/
def handleGenerate (prior : SessionState) (product_name competitor_reviews : String)
    (resp : CompletionResult) : SessionState × GenOutcome :=
  if product_name.isEmpty ∨ competitor_reviews.isEmpty then
    (prior, GenOutcome.missingInput)
  else
    match resp with
    | CompletionResult.exc d => (prior, GenOutcome.transportFailure d)
    | CompletionResult.ok content =>
      match validateResponse content with
      | Except.error (ValidatorError.malformedOutput _) =>
        (prior, GenOutcome.malformedOutput)
      | Except.error (ValidatorError.schemaViolation d) =>
        (prior, GenOutcome.schemaViolation d)
      | Except.ok strategy_output =>
        (⟨some strategy_output, anglesDict strategy_output.sales_angles⟩,
         GenOutcome.success)

/-- The serialized JSON schema embedded in the prompt:
`json.dumps(StrategyOutput.model_json_schema(), indent=2)` (line 105, a
fixed string).  Its exact text is irrelevant to every claim; it is carried
verbatim into the prompt. -/
def json_schema_str : String :=
  "\x7b\n  \"$defs\": \x7b\n    \"SalesAngle\": \x7b\n      \"description\": \"A single sales angle (avatar) with a persuasive paragraph.\",\n      \"properties\": \x7b\n        \"avatar_name\": \x7b\n          \"description\": \"A creative name for the customer avatar, e.g., 'El Escéptico', 'El Usuario Intensivo'.\",\n          \"title\": \"Avatar Name\",\n          \"type\": \"string\"\n        \x7d,\n        \"pain_point_addressed\": \x7b\n          \"description\": \"The main customer pain point this angle addresses, detected from the reviews.\",\n          \"title\": \"Pain Point Addressed\",\n          \"type\": \"string\"\n        \x7d,\n        \"persuasive_copy\": \x7b\n          \"description\": \"A short, persuasive sales paragraph (3-5 sentences) tailored to this avatar, written by a Direct Response Marketing expert.\",\n          \"title\": \"Persuasive Copy\",\n          \"type\": \"string\"\n        \x7d\n      \x7d,\n      \"required\": [\n        \"avatar_name\",\n        \"pain_point_addressed\",\n        \"persuasive_copy\"\n      ],\n      \"title\": \"SalesAngle\",\n      \"type\": \"object\"\n    \x7d\n  \x7d,\n  \"description\": \"The complete marketing strategy output.\",\n  \"properties\": \x7b\n    \"main_pain_points\": \x7b\n      \"description\": \"A list of the 3 main customer pain points detected from the reviews.\",\n      \"items\": \x7b\n        \"type\": \"string\"\n      \x7d,\n      \"title\": \"Main Pain Points\",\n      \"type\": \"array\"\n    \x7d,\n    \"sales_angles\": \x7b\n      \"description\": \"A list of 3 distinct sales angles (avatars) with tailored persuasive copy.\",\n      \"items\": \x7b\n        \"$ref\": \"#/$defs/SalesAngle\"\n      \x7d,\n      \"title\": \"Sales Angles\",\n      \"type\": \"array\"\n    \x7d\n  \x7d,\n  \"required\": [\n    \"main_pain_points\",\n    \"sales_angles\"\n  ],\n  \"title\": \"StrategyOutput\",\n  \"type\": \"object\"\n\x7d"

/-- The Prompt Builder: the f-string of lines 108-122, with the two inputs
and the serialized schema substituted at their interpolation points and all
literal text kept verbatim. -/
def prompt (product_name competitor_reviews : String) : String :=
  "\n                Actúa como un experto en Direct Response Marketing (DRM) con 10 años de experiencia.\n                Tu tarea es analizar las reseñas de la competencia para un producto similar al: \"" ++
  product_name ++
  "\".\n\n                RESEÑAS A ANALIZAR:\n                ---\n                " ++
  competitor_reviews ++
  "\n                ---\n\n                Instrucciones:\n                1. **Detecta los dolores principales del cliente** (al menos 3) que se mencionan o se infieren de las reseñas.\n                2. **Crea 3 'Ángulos de Venta' (Avatares) distintos** basados en estos dolores. Cada ángulo debe representar un tipo de cliente con una objeción o necesidad específica (ej: 'El Escéptico', 'El Usuario Intensivo', 'El Buscador de Valor').\n                3. Para cada ángulo, escribe un **párrafo persuasivo de venta** (3-5 frases) que hable directamente al dolor de ese avatar y posicione el producto \"" ++
  product_name ++
  "\" como la solución definitiva. El tono debe ser de venta directa y convincente.\n                4. Tu respuesta DEBE ser un objeto JSON que se ajuste estrictamente al siguiente esquema: " ++
  json_schema_str ++
  "\n                "

/-- The templated heading of line 192:
`f"¡{selected_angle.avatar_name} Resuelto! El {product_name}"`. -/
def shopify_title (selected_angle : SalesAngle) (product_name : String) : String :=
  "¡" ++ selected_angle.avatar_name ++ " Resuelto! El " ++ product_name

/-- The Shopify hero-section JSON document of lines 195-224: a fixed
template whose only variability is the three substituted strings (heading
from `shopify_title`, text from `persuasive_copy`, and the fixed
call-to-action label).  The URL-typed `button_link` setting carries no
`default` key. -/
def shopify_json_data (selected_angle : SalesAngle) (product_name : String) : Json :=
  Json.obj
    [(("type"), Json.str ("hero_section")),
     (("name"), Json.str ("Hero Section - Generated by AI")),
     (("settings"), Json.arr
       [Json.obj
         [(("type"), Json.str ("text")),
          (("id"), Json.str ("heading")),
          (("label"), Json.str ("Heading")),
          (("default"), Json.str (shopify_title selected_angle product_name))],
        Json.obj
         [(("type"), Json.str ("textarea")),
          (("id"), Json.str ("text")),
          (("label"), Json.str ("Text")),
          (("default"), Json.str selected_angle.persuasive_copy)],
        Json.obj
         [(("type"), Json.str ("url")),
          (("id"), Json.str ("button_link")),
          (("label"), Json.str ("Button link"))],
        Json.obj
         [(("type"), Json.str ("text")),
          (("id"), Json.str ("button_label")),
          (("label"), Json.str ("Button label")),
          (("default"), Json.str ("Comprar Ahora"))]])]

/-- The setting of the rendered document with the given `id`, if any. -/
def settingWithId (d : Json) (sid : String) : Option Json :=
  match d with
  | Json.obj ps =>
    match dictGet ("settings") ps with
    | some (Json.arr vs) =>
      vs.find? (fun s =>
        match s with
        | Json.obj sps =>
          match dictGet ("id") sps with
          | some (Json.str t) => t == sid
          | _ => false
        | _ => false)
    | _ => none
  | _ => none

/-- The `default` entry of the setting with the given `id`, if any. -/
def settingDefault (d : Json) (sid : String) : Option Json :=
  match settingWithId d sid with
  | some (Json.obj sps) => dictGet ("default") sps
  | _ => none

/-- The `type` entry of the setting with the given `id`, if any. -/
def settingType (d : Json) (sid : String) : Option Json :=
  match settingWithId d sid with
  | some (Json.obj sps) => dictGet ("type") sps
  | _ => none

/-- `big` contains `small` as a verbatim, unmodified substring. -/
def containsVerbatim (big small : String) : Prop :=
  ∃ x y, big = x ++ small ++ y

/-- Modelled from the spec: hexadecimal digit for string escapes, used by
the JSON serialization that the round-trip property feeds back through the
Response Validator (the repository itself never serializes a
`StrategyOutput`; §8 of the spec postulates a standard JSON serializer). -/
def hexDig (n : Nat) : Char :=
  if n < 10 then Char.ofNat (48 + n) else Char.ofNat (87 + n)

/-- Modelled from the spec: JSON string escaping for one character — the
quote and backslash get a backslash escape, control characters a `\u00XX`
escape, and every other character stands verbatim. -/
def encChar (c : Char) : List Char :=
  if c = '"' then ['\\', '"']
  else if c = '\\' then ['\\', '\\']
  else if c.toNat < 0x20 then
    ['\\', 'u', '0', '0', hexDig (c.toNat / 16), hexDig (c.toNat % 16)]
  else [c]

/-- Modelled from the spec: body of a serialized JSON string. -/
def encBody : List Char → List Char
  | [] => []
  | c :: cs => encChar c ++ encBody cs

/-- Modelled from the spec: a serialized JSON string literal. -/
def encStr (s : String) : List Char :=
  '"' :: encBody s.data ++ ['"']

mutual

/-- Modelled from the spec: compact serialization of a JSON value (the
missing serializer of the §8 round-trip property). -/
def dumpsJson : Json → List Char
  | Json.null => ['n', 'u', 'l', 'l']
  | Json.bool true => ['t', 'r', 'u', 'e']
  | Json.bool false => ['f', 'a', 'l', 's', 'e']
  | Json.num lexeme => lexeme.data
  | Json.str s => encStr s
  | Json.arr vs => '[' :: dumpsArr vs ++ [']']
  | Json.obj ps => '\x7b' :: dumpsObj ps ++ ['\x7d']

/-- Modelled from the spec: comma-separated serialized array elements. -/
def dumpsArr : List Json → List Char
  | [] => []
  | [v] => dumpsJson v
  | v :: vs => dumpsJson v ++ ',' :: dumpsArr vs

/-- Modelled from the spec: comma-separated serialized object members. -/
def dumpsObj : List (String × Json) → List Char
  | [] => []
  | [p] => encStr p.1 ++ ':' :: dumpsJson p.2
  | p :: ps => encStr p.1 ++ ':' :: dumpsJson p.2 ++ ',' :: dumpsObj ps

end

/-- The JSON value a well-formed `SalesAngle` denotes (the shape pydantic's
serialization and the schema prescribe: the three declared string fields). -/
def SalesAngle.toJson (a : SalesAngle) : Json :=
  Json.obj
    [(("avatar_name"), Json.str a.avatar_name),
     (("pain_point_addressed"), Json.str a.pain_point_addressed),
     (("persuasive_copy"), Json.str a.persuasive_copy)]

/-- The JSON value a well-formed `StrategyOutput` denotes. -/
def StrategyOutput.toJson (so : StrategyOutput) : Json :=
  Json.obj
    [(("main_pain_points"), Json.arr (so.main_pain_points.map Json.str)),
     (("sales_angles"), Json.arr (so.sales_angles.map SalesAngle.toJson))]

/-- Modelled from the spec: a well-formed `StrategyOutput` serialized to a
JSON text. -/
def StrategyOutput.model_dump_json (so : StrategyOutput) : String :=
  ⟨dumpsJson so.toJson⟩

/-- A string contains its right append summand. -/
theorem containsVerbatim_append_self (a s : String) : containsVerbatim (a ++ s) s :=
  ⟨a, "", by simp⟩

/-- Containment is stable under appending on the right. -/
theorem containsVerbatim_appendl (a b s : String) (h : containsVerbatim a s) :
    containsVerbatim (a ++ b) s := by
  obtain ⟨x, y, hxy⟩ := h
  exact ⟨x, y ++ b, by rw [hxy]; simp [String.append_assoc]⟩

/-- C3: every error kind — missing input, transport failure, malformed
output, or schema violation — aborts the generation attempt with the
Strategy Store (both the stored StrategyOutput and the derived avatar-name
lookup) exactly as it was before the attempt; only a success changes it. -/
theorem error_paths_leave_store_untouched (prior : SessionState)
    (product_name competitor_reviews : String) (resp : CompletionResult)
    (h : (handleGenerate prior product_name competitor_reviews resp).2 ≠ GenOutcome.success) :
    (handleGenerate prior product_name competitor_reviews resp).1 = prior := by
  unfold handleGenerate at h ⊢
  by_cases hin : product_name.isEmpty ∨ competitor_reviews.isEmpty
  · simp [hin]
  · cases resp with
    | exc d => simp [hin]
    | ok content =>
      simp only [hin, if_false] at h ⊢
      cases hv : validateResponse content with
      | error e => cases e <;> simp [hv]
      | ok so => simp [hv] at h

/-- C3 witness: Scenario B — the completion body is the literal text
`not json`; the attempt fails and a previously stored strategy survives
unchanged. -/
theorem error_paths_leave_store_untouched_witness :
    (handleGenerate ⟨some ⟨["p"], [⟨"A", "b", "c"⟩]⟩, [(("A"), ⟨"A", "b", "c"⟩)]⟩
        ("Silent Blender") ("great reviews") (CompletionResult.ok ("not json"))).2 ≠
      GenOutcome.success ∧
    (handleGenerate ⟨some ⟨["p"], [⟨"A", "b", "c"⟩]⟩, [(("A"), ⟨"A", "b", "c"⟩)]⟩
        ("Silent Blender") ("great reviews") (CompletionResult.ok ("not json"))).1 =
      ⟨some ⟨["p"], [⟨"A", "b", "c"⟩]⟩, [(("A"), ⟨"A", "b", "c"⟩)]⟩ := by
  exact ⟨by decide, error_paths_leave_store_untouched _ _ _ _ (by decide)⟩

/-- C4: a raw response string that `json.loads` cannot parse makes the
Response Validator return exactly the `MalformedOutput` error carrying the
raw text — never a `SchemaViolation` and never an unhandled fault (the
validator is a total function into the error sum). -/
theorem unparseable_response_is_malformed_output (s : String)
    (h : parseJson s = none) :
    validateResponse s = Except.error (ValidatorError.malformedOutput s) := by
  unfold validateResponse
  rw [h]

/-- C4 witness: the literal text `not json` fails to parse and is reported
as `MalformedOutput`. -/
theorem unparseable_response_is_malformed_output_witness :
    parseJson ("not json") = none ∧
    validateResponse ("not json") =
      Except.error (ValidatorError.malformedOutput ("not json")) :=
  ⟨rfl, unparseable_response_is_malformed_output ("not json") rfl⟩

/-- C8: the Prompt Builder embeds both inputs verbatim — for every pair of
non-empty inputs the prompt contains the literal `product_name` and the
literal `reviews_text` as unmodified substrings. -/
theorem prompt_embeds_inputs_verbatim (product_name competitor_reviews : String)
    (hp : ¬product_name.isEmpty) (hr : ¬competitor_reviews.isEmpty) :
    containsVerbatim (prompt product_name competitor_reviews) product_name ∧
      containsVerbatim (prompt product_name competitor_reviews) competitor_reviews := by
  unfold prompt
  constructor
  · exact containsVerbatim_appendl _ _ _ (containsVerbatim_appendl _ _ _
      (containsVerbatim_appendl _ _ _ (containsVerbatim_appendl _ _ _
        (containsVerbatim_appendl _ _ _ (containsVerbatim_appendl _ _ _
          (containsVerbatim_appendl _ _ _ (containsVerbatim_append_self _ _)))))))
  · exact containsVerbatim_appendl _ _ _ (containsVerbatim_appendl _ _ _
      (containsVerbatim_appendl _ _ _ (containsVerbatim_appendl _ _ _
        (containsVerbatim_appendl _ _ _ (containsVerbatim_append_self _ _)))))

/-- C8 witness: concrete non-empty inputs are embedded verbatim. -/
theorem prompt_embeds_inputs_verbatim_witness :
    ¬(("Silent Blender" : String)).isEmpty ∧ ¬(("great reviews" : String)).isEmpty ∧
    (containsVerbatim (prompt ("Silent Blender") ("great reviews")) ("Silent Blender") ∧
      containsVerbatim (prompt ("Silent Blender") ("great reviews")) ("great reviews")) :=
  ⟨by decide, by decide,
   prompt_embeds_inputs_verbatim ("Silent Blender") ("great reviews") (by decide) (by decide)⟩

/-- C9: the rendered hero-section document has a `heading` setting whose
default contains both the avatar name and the product name verbatim, a
`text` setting whose default is exactly the angle's persuasive copy, a
URL-typed `button_link` setting with no default, and a `button_label`
setting defaulting to the fixed call-to-action label. -/
theorem hero_template_fields (selected_angle : SalesAngle) (product_name : String) :
    (∃ h, settingDefault (shopify_json_data selected_angle product_name) ("heading") =
        some (Json.str h) ∧
      containsVerbatim h selected_angle.avatar_name ∧ containsVerbatim h product_name) ∧
    settingDefault (shopify_json_data selected_angle product_name) ("text") =
      some (Json.str selected_angle.persuasive_copy) ∧
    settingType (shopify_json_data selected_angle product_name) ("button_link") =
      some (Json.str ("url")) ∧
    settingDefault (shopify_json_data selected_angle product_name) ("button_link") = none ∧
    settingDefault (shopify_json_data selected_angle product_name) ("button_label") =
      some (Json.str ("Comprar Ahora")) := by
  refine ⟨⟨shopify_title selected_angle product_name, rfl, ?_, ?_⟩, rfl, rfl, rfl, rfl⟩
  · unfold shopify_title
    exact containsVerbatim_appendl _ _ _ (containsVerbatim_appendl _ _ _
      (containsVerbatim_append_self _ _))
  · unfold shopify_title
    exact containsVerbatim_append_self _ _

/-- A `SalesAngle` validates successfully exactly when the parsed value is
an object carrying all three declared fields as JSON strings (possibly
empty); the resulting record holds exactly the parsed strings. -/
theorem salesAngle_ok_iff (j : Json) (a : SalesAngle) :
    SalesAngle.model_validate j = Except.ok a ↔
      ∃ qs, j = Json.obj qs ∧
        dictGet ("avatar_name") qs = some (Json.str a.avatar_name) ∧
        dictGet ("pain_point_addressed") qs = some (Json.str a.pain_point_addressed) ∧
        dictGet ("persuasive_copy") qs = some (Json.str a.persuasive_copy) := by
  constructor
  · intro h
    cases j with
    | obj qs =>
      refine ⟨qs, rfl, ?_⟩
      simp only [SalesAngle.model_validate, requiredField] at h
      cases hv1 : dictGet ("avatar_name") qs with
      | none => rw [hv1] at h; simp at h
      | some v1 =>
        rw [hv1] at h
        cases v1 <;> simp [validateStr] at h
        case str av =>
          cases hv2 : dictGet ("pain_point_addressed") qs with
          | none => rw [hv2] at h; simp at h
          | some v2 =>
            rw [hv2] at h
            cases v2 <;> simp [validateStr] at h
            case str pp =>
              cases hv3 : dictGet ("persuasive_copy") qs with
              | none => rw [hv3] at h; simp at h
              | some v3 =>
                rw [hv3] at h
                cases v3 <;> simp [validateStr] at h
                case str pc =>
                  rw [← h]
                  exact ⟨rfl, rfl, rfl⟩
    | null => simp [SalesAngle.model_validate] at h
    | bool b => simp [SalesAngle.model_validate] at h
    | num s => simp [SalesAngle.model_validate] at h
    | str s => simp [SalesAngle.model_validate] at h
    | arr vs => simp [SalesAngle.model_validate] at h
  · rintro ⟨qs, rfl, h1, h2, h3⟩
    simp only [SalesAngle.model_validate, requiredField]
    rw [h1, h2, h3]
    simp [validateStr]

/-- C1 counterexample: a response whose `avatar_name` is the empty string
passes validation (the pydantic `str` fields carry no `min_length`
constraint), so an empty-string field does not cause a validation
failure. -/
theorem empty_string_fields_accepted :
    validateResponse
        ("\x7b\"main_pain_points\": [\"x\"], \"sales_angles\": [\x7b\"avatar_name\": \"\", \"pain_point_addressed\": \"a\", \"persuasive_copy\": \"b\"\x7d]\x7d") =
      Except.ok ⟨["x"], [⟨"", "a", "b"⟩]⟩ := rfl

/-- C1 (amended): a `SalesAngle` entry validates exactly when all three
declared fields are present and of string type; an absent or wrong-typed
field is a hard validation failure and no field is ever default-filled
(the result carries exactly the parsed strings) — but an empty string is
accepted as a field value. -/
theorem sales_angle_validation_requires_present_string_fields
    (j : Json) (a : SalesAngle) :
    SalesAngle.model_validate j = Except.ok a ↔
      ∃ qs, j = Json.obj qs ∧
        dictGet ("avatar_name") qs = some (Json.str a.avatar_name) ∧
        dictGet ("pain_point_addressed") qs = some (Json.str a.pain_point_addressed) ∧
        dictGet ("persuasive_copy") qs = some (Json.str a.persuasive_copy) :=
  salesAngle_ok_iff j a

/-- An `Except` value that is no success is an error. -/
theorem except_error_of_ne_ok {α β : Type} (x : Except α β)
    (h : ∀ b, x ≠ Except.ok b) : ∃ e, x = Except.error e := by
  cases x with
  | error e => exact ⟨e, rfl⟩
  | ok b => exact absurd rfl (h b)

/-- A `StrategyOutput` validates successfully exactly when the parsed value
is an object whose two required fields are present and themselves validate
to the record's components. -/
theorem strategyOutput_ok_iff (j : Json) (so : StrategyOutput) :
    StrategyOutput.model_validate j = Except.ok so ↔
      ∃ ps v1 v2, j = Json.obj ps ∧
        dictGet ("main_pain_points") ps = some v1 ∧
        validateStrList ("main_pain_points") v1 = Except.ok so.main_pain_points ∧
        dictGet ("sales_angles") ps = some v2 ∧
        validateAngleList v2 = Except.ok so.sales_angles := by
  constructor
  · intro h
    cases j with
    | obj ps =>
      simp only [StrategyOutput.model_validate, requiredField] at h
      cases hv1 : dictGet ("main_pain_points") ps with
      | none => simp [hv1] at h
      | some v1 =>
        cases hs1 : validateStrList ("main_pain_points") v1 with
        | error e => simp [hv1, hs1] at h
        | ok mpp =>
          cases hv2 : dictGet ("sales_angles") ps with
          | none => simp [hv1, hs1, hv2] at h
          | some v2 =>
            cases hs2 : validateAngleList v2 with
            | error e => simp [hv1, hs1, hv2, hs2] at h
            | ok sa =>
              simp only [hv1, hs1, hv2, hs2, Except.ok.injEq] at h
              exact ⟨ps, v1, v2, rfl, hv1, by rw [← h]; exact hs1, hv2,
                by rw [← h]; exact hs2⟩
    | null => simp [StrategyOutput.model_validate] at h
    | bool b => simp [StrategyOutput.model_validate] at h
    | num s2 => simp [StrategyOutput.model_validate] at h
    | str s2 => simp [StrategyOutput.model_validate] at h
    | arr vs => simp [StrategyOutput.model_validate] at h
  · rintro ⟨ps, v1, v2, rfl, hv1, hs1, hv2, hs2⟩
    simp only [StrategyOutput.model_validate, requiredField, hv1, hs1, hv2, hs2]

/-- Every element of a successfully validated `sales_angles` array itself
validates as a `SalesAngle`. -/
theorem validateAngleElems_ok_mem (vs : List Json) (as2 : List SalesAngle)
    (h : validateAngleElems vs = Except.ok as2) (v : Json) (hv : v ∈ vs) :
    ∃ a, SalesAngle.model_validate v = Except.ok a := by
  induction vs generalizing as2 with
  | nil => cases hv
  | cons w ws ih =>
    cases hw : SalesAngle.model_validate w with
    | error e => simp [validateAngleElems, hw] at h
    | ok a =>
      rcases List.mem_cons.mp hv with hv1 | hv1
      · exact ⟨a, hv1 ▸ hw⟩
      · simp only [validateAngleElems, hw] at h
        cases hws : validateAngleElems ws with
        | error e => rw [hws] at h; simp at h
        | ok as3 => exact ih as3 hws hv1

/-- Parse success followed by a validation error surfaces as a
`SchemaViolation`. -/
theorem validateResponse_eq_schema (s : String) (j : Json) (d : String)
    (hp : parseJson s = some j)
    (hv : StrategyOutput.model_validate j = Except.error d) :
    validateResponse s = Except.error (ValidatorError.schemaViolation d) := by
  simp only [validateResponse, hp, hv]

/-- C5: a parsed JSON object that misses `main_pain_points` or
`sales_angles`, or whose `sales_angles` array contains an entry object
missing any of the three angle fields, makes the Response Validator return
the distinct `SchemaViolation` error kind (never `MalformedOutput`),
carrying the violation detail. -/
theorem missing_fields_are_schema_violation (s : String)
    (ps : List (String × Json))
    (hp : parseJson s = some (Json.obj ps))
    (hmiss :
      dictGet ("main_pain_points") ps = none ∨
      dictGet ("sales_angles") ps = none ∨
      (∃ entries qs, dictGet ("sales_angles") ps = some (Json.arr entries) ∧
        Json.obj qs ∈ entries ∧
        (dictGet ("avatar_name") qs = none ∨
         dictGet ("pain_point_addressed") qs = none ∨
         dictGet ("persuasive_copy") qs = none))) :
    ∃ d, validateResponse s = Except.error (ValidatorError.schemaViolation d) := by
  have hne : ∀ so, StrategyOutput.model_validate (Json.obj ps) ≠ Except.ok so := by
    intro so hok
    obtain ⟨ps2, v1, v2, hps2, hv1, hs1, hv2, hs2⟩ := (strategyOutput_ok_iff _ so).mp hok
    rw [Json.obj.injEq] at hps2
    subst hps2
    rcases hmiss with h1 | h2 | ⟨entries, qs, hsa, hmem, hfield⟩
    · rw [h1] at hv1; cases hv1
    · rw [h2] at hv2; cases hv2
    · rw [hsa] at hv2
      have hv2e : Json.arr entries = v2 := Option.some.inj hv2
      subst hv2e
      simp only [validateAngleList] at hs2
      obtain ⟨a, ha⟩ := validateAngleElems_ok_mem entries _ hs2 _ hmem
      obtain ⟨qs2, hqs2, f1, f2, f3⟩ := (salesAngle_ok_iff _ a).mp ha
      rw [Json.obj.injEq] at hqs2
      subst hqs2
      rcases hfield with hf | hf | hf
      · rw [hf] at f1; cases f1
      · rw [hf] at f2; cases f2
      · rw [hf] at f3; cases f3
  obtain ⟨d, hd⟩ := except_error_of_ne_ok _ hne
  exact ⟨d, validateResponse_eq_schema s _ d hp hd⟩

/-- C5 witness: Scenario C — the response misses `sales_angles` and is
reported as a `SchemaViolation`. -/
theorem missing_fields_are_schema_violation_witness :
    parseJson ("\x7b\"main_pain_points\": [\"x\"]\x7d") =
      some (Json.obj [(("main_pain_points"), Json.arr [Json.str ("x")])]) ∧
    dictGet ("sales_angles") [(("main_pain_points"), Json.arr [Json.str ("x")])] = none ∧
    ∃ d, validateResponse ("\x7b\"main_pain_points\": [\"x\"]\x7d") =
      Except.error (ValidatorError.schemaViolation d) :=
  ⟨rfl, rfl,
   missing_fields_are_schema_violation _ _ rfl (Or.inr (Or.inl rfl))⟩

/-- C2 counterexample: a response whose `sales_angles` is the empty list
passes validation (the pydantic `List` field carries no `min_length`
constraint), so the pipeline reports success and stores an empty
`sales_angles`. -/
theorem success_with_empty_sales_angles :
    handleGenerate SessionState.initial ("Silent Blender") ("great reviews")
        (CompletionResult.ok ("\x7b\"main_pain_points\": [\"x\"], \"sales_angles\": []\x7d")) =
      (⟨some ⟨["x"], []⟩, []⟩, GenOutcome.success) := rfl

/-- C2 (amended): a success report stores exactly the StrategyOutput that
the Response Validator produced from the completion text, together with its
derived lookup; since the schema does not constrain the list's length, the
stored `sales_angles` — and hence a successful run's store — may be
empty. -/
theorem success_stores_validated_output (prior : SessionState)
    (product_name competitor_reviews content : String)
    (h : (handleGenerate prior product_name competitor_reviews
        (CompletionResult.ok content)).2 = GenOutcome.success) :
    ∃ so, validateResponse content = Except.ok so ∧
      (handleGenerate prior product_name competitor_reviews
          (CompletionResult.ok content)).1 =
        ⟨some so, anglesDict so.sales_angles⟩ := by
  unfold handleGenerate at h ⊢
  by_cases hin : product_name.isEmpty ∨ competitor_reviews.isEmpty
  · simp [hin] at h
  · simp only [hin, if_false] at h ⊢
    cases hv : validateResponse content with
    | error e => cases e <;> simp [hv] at h
    | ok so => exact ⟨so, rfl, by simp [hv]⟩

/-- C2 witness: a concrete successful run stores the validated output. -/
theorem success_stores_validated_output_witness :
    (handleGenerate SessionState.initial ("Silent Blender") ("great reviews")
        (CompletionResult.ok ("\x7b\"main_pain_points\": [\"x\"], \"sales_angles\": []\x7d"))).2 =
      GenOutcome.success ∧
    ∃ so, validateResponse ("\x7b\"main_pain_points\": [\"x\"], \"sales_angles\": []\x7d") =
        Except.ok so ∧
      (handleGenerate SessionState.initial ("Silent Blender") ("great reviews")
          (CompletionResult.ok ("\x7b\"main_pain_points\": [\"x\"], \"sales_angles\": []\x7d"))).1 =
        ⟨some so, anglesDict so.sales_angles⟩ :=
  ⟨rfl, success_stores_validated_output _ _ _ _ rfl⟩

/-- Inserting a pair with a different key anywhere in an object leaves a
lookup unchanged. -/
theorem dictGet_insert_ne (k k2 : String) (v : Json) (ps qs : List (String × Json))
    (h : k2 ≠ k) :
    dictGet k (ps ++ (k2, v) :: qs) = dictGet k (ps ++ qs) := by
  induction ps with
  | nil =>
    simp only [List.nil_append, dictGet]
    cases dictGet k qs with
    | some r => rfl
    | none => simp [h]
  | cons p ps2 ih =>
    simp only [List.cons_append, dictGet, List.append_eq, ih]

/-- C10: unknown extra fields are ignored — inserting a pair whose key is
not a declared field anywhere into the top-level object or into a
`sales_angles` entry leaves the validation outcome (success value or
violation detail) unchanged, so extras are never a `SchemaViolation` and
never reach the resulting record. -/
theorem extra_fields_ignored (ps1 ps2 qs1 qs2 : List (String × Json))
    (k k2 : String) (v v2 : Json)
    (h1 : k ≠ "main_pain_points") (h2 : k ≠ "sales_angles")
    (h3 : k2 ≠ "avatar_name") (h4 : k2 ≠ "pain_point_addressed")
    (h5 : k2 ≠ "persuasive_copy") :
    StrategyOutput.model_validate (Json.obj (ps1 ++ (k, v) :: ps2)) =
      StrategyOutput.model_validate (Json.obj (ps1 ++ ps2)) ∧
    SalesAngle.model_validate (Json.obj (qs1 ++ (k2, v2) :: qs2)) =
      SalesAngle.model_validate (Json.obj (qs1 ++ qs2)) := by
  constructor
  · simp only [StrategyOutput.model_validate, requiredField,
      dictGet_insert_ne _ _ _ _ _ h1, dictGet_insert_ne _ _ _ _ _ h2]
  · simp only [SalesAngle.model_validate, requiredField,
      dictGet_insert_ne _ _ _ _ _ h3, dictGet_insert_ne _ _ _ _ _ h4,
      dictGet_insert_ne _ _ _ _ _ h5]

/-- C10 witness: a concrete object with one extra top-level field and one
extra entry field validates exactly as without them. -/
theorem extra_fields_ignored_witness :
    StrategyOutput.model_validate (Json.obj
        ([(("main_pain_points"), Json.arr [Json.str ("x")])] ++
          (("extra"), Json.num ("42")) ::
          [(("sales_angles"), Json.arr [])])) =
      StrategyOutput.model_validate (Json.obj
        ([(("main_pain_points"), Json.arr [Json.str ("x")])] ++
          [(("sales_angles"), Json.arr [])])) ∧
    SalesAngle.model_validate (Json.obj
        ([(("avatar_name"), Json.str ("A")),
          (("pain_point_addressed"), Json.str ("p")),
          (("persuasive_copy"), Json.str ("c"))] ++
          (("more"), Json.bool true) :: [])) =
      SalesAngle.model_validate (Json.obj
        ([(("avatar_name"), Json.str ("A")),
          (("pain_point_addressed"), Json.str ("p")),
          (("persuasive_copy"), Json.str ("c"))] ++ [])) :=
  extra_fields_ignored _ _ _ _ _ _ _ _
    (by decide) (by decide) (by decide) (by decide) (by decide)

/-- A Python dict assignment makes the assigned key map to the new value
and leaves every other key's mapping unchanged. -/
theorem pyGet_pyInsert (m : List (String × SalesAngle)) (k n : String) (v : SalesAngle) :
    pyGet (pyInsert m k v) n = if k = n then some v else pyGet m n := by
  induction m with
  | nil =>
    by_cases h : k = n <;> simp [pyInsert, pyGet, h]
  | cons p ps ih =>
    by_cases hpk : p.1 = k
    · by_cases hkn : k = n
      · simp [pyInsert, pyGet, hpk, hkn]
      · simp only [pyInsert, hpk, if_pos, pyGet]
        simp only [if_neg hkn]
    · by_cases hpn : p.1 = n
      · have hkn : ¬k = n := fun he => hpk (he ▸ hpn)
        have hnk : ¬n = k := fun he => hkn he.symm
        simp [pyInsert, pyGet, hpk, hpn, hkn, hnk]
      · simp [pyInsert, pyGet, hpk, hpn, ih]

/-- Folding the dict comprehension over a list: the result maps a name to
the last matching angle when one exists, and otherwise looks up the
accumulator. -/
theorem pyGet_foldl_pyInsert (l : List SalesAngle) (m : List (String × SalesAngle))
    (n : String) :
    pyGet (l.foldl (fun m2 angle => pyInsert m2 angle.avatar_name angle) m) n =
      match l.reverse.find? (fun a => a.avatar_name == n) with
      | some a => some a
      | none => pyGet m n := by
  induction l generalizing m with
  | nil => simp
  | cons a t ih =>
    simp only [List.foldl_cons, List.reverse_cons, List.find?_append, ih]
    cases hf : t.reverse.find? (fun x => x.avatar_name == n) with
    | some b => simp [Option.or]
    | none =>
      simp only [Option.or, pyGet_pyInsert]
      by_cases han : a.avatar_name = n
      · simp [List.find?, han]
      · have hbeq : (a.avatar_name == n) = false := beq_eq_false_iff_ne.mpr han
        simp [List.find?, hbeq, han]

/-- C6: the avatar-name lookup derived from `sales_angles` maps every name
to the last angle in the sequence bearing it (later entries overwrite
earlier ones), and every `avatar_name` occurring in `sales_angles` is a key
of the lookup. -/
theorem angles_lookup_last_write_wins (sales_angles : List SalesAngle) (n : String) :
    pyGet (anglesDict sales_angles) n =
      sales_angles.reverse.find? (fun a => a.avatar_name == n) ∧
    sales_angles.all
      (fun a => (pyGet (anglesDict sales_angles) a.avatar_name).isSome) = true := by
  have key : ∀ n2, pyGet (anglesDict sales_angles) n2 =
      sales_angles.reverse.find? (fun a => a.avatar_name == n2) := by
    intro n2
    rw [anglesDict, pyGet_foldl_pyInsert]
    cases hf : sales_angles.reverse.find? (fun a => a.avatar_name == n2) with
    | some b => rfl
    | none => simp [pyGet]
  refine ⟨key n, ?_⟩
  rw [List.all_eq_true]
  intro a ha
  rw [key a.avatar_name, Option.isSome_iff_exists]
  have : (sales_angles.reverse.find? (fun x => x.avatar_name == a.avatar_name)).isSome := by
    rw [List.find?_isSome]
    exact ⟨a, List.mem_reverse.mpr ha, by simp⟩
  obtain ⟨b, hb⟩ := Option.isSome_iff_exists.mp this
  exact ⟨b, hb⟩

/-- The serializer's hexadecimal digit is read back by the parser's
hexadecimal reader. -/
theorem hexVal_hexDig : ∀ n : Nat, n < 16 → hexVal (hexDig n) = some n := by
  decide

/-- Escaping never shortens a string. -/
theorem encBody_length (cs : List Char) : cs.length ≤ (encBody cs).length := by
  induction cs with
  | nil => simp [encBody]
  | cons c cs2 ih =>
    simp only [encBody, List.length_cons, List.length_append]
    have : 1 ≤ (encChar c).length := by
      unfold encChar
      by_cases h1 : c = '"'
      · simp [h1]
      · by_cases h2 : c = '\\'
        · simp [h1, h2]
        · by_cases h3 : c.toNat < 0x20 <;> simp [h1, h2, h3]
    omega

/-- Skipping whitespace before a non-whitespace head is the identity. -/
theorem skipWs_no (c : Char) (cs : List Char) (h : isJsonWs c = false) :
    skipWs (c :: cs) = c :: cs := by
  simp [skipWs, h]

/-- A serialized string literal in front of a continuation, head-normal. -/
theorem encStr_cons (s : String) (rest : List Char) :
    encStr s ++ rest = '"' :: (encBody s.data ++ '"' :: rest) := by
  simp [encStr]

/-- The parser reads back exactly what the serializer escaped, leaving the
continuation untouched. -/
theorem parseStringBody_encBody (cs : List Char) :
    ∀ (rest : List Char) (fuel : Nat), cs.length < fuel →
      parseStringBody fuel (encBody cs ++ '"' :: rest) = some (cs, rest) := by
  induction cs with
  | nil =>
    intro rest fuel hf
    obtain ⟨f, rfl⟩ : ∃ f, fuel = f + 1 := ⟨fuel - 1, by omega⟩
    simp [encBody, parseStringBody]
  | cons c cs2 ih =>
    intro rest fuel hf
    obtain ⟨f, rfl⟩ : ∃ f, fuel = f + 1 := ⟨fuel - 1, by omega⟩
    have hfc : cs2.length < f := by
      simp only [List.length_cons] at hf
      omega
    by_cases h1 : c = '"'
    · subst h1
      simp only [encBody, encChar, if_pos rfl, List.cons_append, List.append_assoc]
      simp [parseStringBody, ih rest f hfc]
    · by_cases h2 : c = '\\'
      · subst h2
        simp only [encBody, encChar, List.cons_append, List.append_assoc]
        norm_num
        simp [parseStringBody, ih rest f hfc]
      · by_cases h3 : c.toNat < 0x20
        · have hd16 : c.toNat / 16 < 16 := by omega
          have hm16 : c.toNat % 16 < 16 := Nat.mod_lt _ (by norm_num)
          have hhex : hex4 '0' '0' (hexDig (c.toNat / 16)) (hexDig (c.toNat % 16)) =
              some c.toNat := by
            unfold hex4
            rw [hexVal_hexDig _ hd16, hexVal_hexDig _ hm16,
              (show hexVal '0' = some 0 by decide)]
            simp
            omega
          have hu : uCharOf c.toNat = c := by
            unfold uCharOf
            rw [if_neg (by omega : ¬(0xD800 ≤ c.toNat ∧ c.toNat ≤ 0xDFFF))]
            exact Char.ofNat_toNat c
          have hns : ¬(0xD800 ≤ c.toNat ∧ c.toNat ≤ 0xDBFF) := by omega
          simp only [encBody, encChar, if_neg h1, if_neg h2, if_pos h3,
            List.cons_append, List.append_assoc]
          simp [parseStringBody, hhex, hns, ih rest f hfc, hu]
        · simp only [encBody, encChar, if_neg h1, if_neg h2, if_neg h3,
            List.cons_append, List.append_assoc, List.singleton_append]
          simp only [parseStringBody, List.nil_append]
          rw [if_neg h1, if_neg h2, if_neg h3, ih rest f hfc]
          rfl

/-- The value parser reads back a serialized string with any fuel. -/
theorem pv_str (s : String) (rest : List Char) (fuel : Nat) :
    parseJsonValue (fuel + 1) ('"' :: (encBody s.data ++ '"' :: rest)) =
      some (Json.str s, rest) := by
  have hb : parseStringBody ((encBody s.data).length + (rest.length + 1) + 1)
      (encBody s.data ++ '"' :: rest) = some (s.data, rest) := by
    apply parseStringBody_encBody
    have := encBody_length s.data
    omega
  simp only [parseJsonValue, List.length_append, List.length_cons]
  simp [hb]

/-- An array of serialized strings is at least as long as the list. -/
theorem dumpsArr_strs_length (l : List String) :
    l.length ≤ (dumpsArr (l.map Json.str)).length := by
  induction l with
  | nil => simp [dumpsArr]
  | cons a t ih =>
    cases t with
    | nil => simp [dumpsArr, dumpsJson, encStr]
    | cons b t2 =>
      simp only [List.map_cons, dumpsArr, dumpsJson, List.length_append,
        List.length_cons, List.map_cons] at ih ⊢
      have : 1 ≤ (encStr a).length := by simp [encStr]
      omega

/-- A serialized array headed by a string element starts with a quote, so
leading-whitespace skipping leaves it unchanged. -/
theorem skipWs_strs_arr (b : String) (l : List Json) (r : List Char) :
    skipWs (dumpsArr (Json.str b :: l) ++ r) = dumpsArr (Json.str b :: l) ++ r := by
  cases l with
  | nil =>
    simp only [dumpsArr, dumpsJson, encStr_cons]
    exact skipWs_no _ _ (by decide)
  | cons u t2 =>
    simp only [dumpsArr, dumpsJson, List.cons_append, List.append_assoc, encStr_cons]
    exact skipWs_no _ _ (by decide)

/-- The element loop reads back a non-empty serialized string array. -/
theorem arrItems_strs (l : List String) :
    ∀ (a : String) (rest : List Char) (g fuel : Nat), l.length < fuel →
      arrItemsLoop (parseJsonValue (g + 1)) fuel
          (dumpsArr ((a :: l).map Json.str) ++ ']' :: rest) =
        some ((a :: l).map Json.str, rest) := by
  induction l with
  | nil =>
    intro a rest g fuel hf
    obtain ⟨f, rfl⟩ : ∃ f, fuel = f + 1 := ⟨fuel - 1, by omega⟩
    simp only [List.map_cons, List.map_nil, dumpsArr, dumpsJson, encStr_cons]
    simp only [arrItemsLoop, pv_str]
    rw [skipWs_no ']' rest (by decide)]
    simp
  | cons b t ih =>
    intro a rest g fuel hf
    obtain ⟨f, rfl⟩ : ∃ f, fuel = f + 1 := ⟨fuel - 1, by omega⟩
    have hft : t.length < f := by
      simp only [List.length_cons] at hf
      omega
    simp only [List.map_cons, dumpsArr, dumpsJson, List.cons_append,
      List.append_assoc, encStr_cons]
    simp only [arrItemsLoop, pv_str]
    rw [skipWs_no ',' _ (by decide)]
    have hre := ih b rest g f hft
    simp only [List.map_cons] at hre
    have hsw := skipWs_strs_arr b (t.map Json.str) (']' :: rest)
    simp [hsw, hre]

/-- The continuation of a serialized array after its first element. -/
def arrTail (l : List Json) (r : List Char) : List Char :=
  match l with
  | [] => r
  | _ :: _ => ',' :: (dumpsArr l ++ r)

/-- Head-normal form of a serialized array starting with a string. -/
theorem dumpsArr_str_head (a : String) (l : List Json) (r : List Char) :
    dumpsArr (Json.str a :: l) ++ r =
      '"' :: (encBody a.data ++ '"' :: arrTail l r) := by
  cases l with
  | nil => simp [dumpsArr, dumpsJson, arrTail, encStr]
  | cons u t2 => simp [dumpsArr, dumpsJson, arrTail, encStr, List.append_assoc]

/-- The array continuation is at least as long as the remaining element
list when the elements are serialized strings. -/
theorem arrTail_strs_length (t : List String) (r : List Char) :
    t.length ≤ (arrTail (t.map Json.str) r).length := by
  cases t with
  | nil => simp [arrTail]
  | cons u t2 =>
    have := dumpsArr_strs_length (u :: t2)
    simp only [arrTail, List.map_cons, List.length_cons, List.length_append] at this ⊢
    omega

/-- Dispatch of the value parser on an opening bracket. -/
theorem pv_arr_dispatch (fuel : Nat) (r : List Char) :
    parseJsonValue (fuel + 2) ('[' :: r) =
      (match skipWs r with
       | [] => none
       | c2 :: r2 =>
         if c2 = ']' then some (Json.arr [], r2)
         else
           (arrItemsLoop (parseJsonValue (fuel + 1)) ((c2 :: r2).length + 1) (c2 :: r2)).map
             (fun p => (Json.arr p.1, p.2))) := rfl

/-- Dispatch of the value parser on an opening brace. -/
theorem pv_obj_dispatch (fuel : Nat) (r : List Char) :
    parseJsonValue (fuel + 2) ('\x7b' :: r) =
      (match skipWs r with
       | [] => none
       | c2 :: r2 =>
         if c2 = '\x7d' then some (Json.obj [], r2)
         else
           (objItemsLoop (parseJsonValue (fuel + 1)) ((c2 :: r2).length + 1) (c2 :: r2)).map
             (fun p => (Json.obj p.1, p.2))) := rfl

/-- The value parser reads back a serialized string array. -/
theorem pv_arr_strs (l : List String) (rest : List Char) (fuel : Nat) :
    parseJsonValue (fuel + 2) ('[' :: (dumpsArr (l.map Json.str) ++ ']' :: rest)) =
      some (Json.arr (l.map Json.str), rest) := by
  cases l with
  | nil =>
    simp only [List.map_nil, dumpsArr, List.nil_append]
    rw [pv_arr_dispatch, skipWs_no ']' rest (by decide)]
    simp
  | cons a t =>
    have hhead := dumpsArr_str_head a (t.map Json.str) (']' :: rest)
    have hlen : t.length <
        ('"' :: (encBody a.data ++ '"' :: arrTail (t.map Json.str) (']' :: rest))).length + 1 := by
      have := arrTail_strs_length t (']' :: rest)
      simp only [List.length_cons, List.length_append]
      omega
    have harr := arrItems_strs t a rest fuel
      (('"' :: (encBody a.data ++ '"' :: arrTail (t.map Json.str) (']' :: rest))).length + 1)
      hlen
    simp only [List.map_cons] at harr
    rw [hhead] at harr
    simp only [List.map_cons]
    have hfe : ('"' :: (encBody a.data ++ '"' :: arrTail (t.map Json.str) (']' :: rest))).length + 1 =
        (encBody a.data).length +
          ((arrTail (t.map Json.str) (']' :: rest)).length + 1) + 1 + 1 := by
      simp only [List.length_cons, List.length_append]
    rw [hfe] at harr
    rw [pv_arr_dispatch]
    rw [skipWs_strs_arr a (t.map Json.str) (']' :: rest)]
    rw [hhead]
    simp [harr]

/-- Dispatch of the member loop on a key's opening quote. -/
theorem objLoop_dispatch (pv : List Char → Option (Json × List Char)) (fuel : Nat)
    (r : List Char) :
    objItemsLoop pv (fuel + 1) ('"' :: r) =
      (match parseStringBody (r.length + 1) r with
       | none => none
       | some (kcs, r1) =>
         match skipWs r1 with
         | [] => none
         | c2 :: r2 =>
           if c2 = ':' then
             match pv (skipWs r2) with
             | none => none
             | some (v, r3) =>
               match skipWs r3 with
               | [] => none
               | c3 :: r4 =>
                 if c3 = ',' then
                   (objItemsLoop pv fuel (skipWs r4)).map
                     (fun p => ((⟨kcs⟩, v) :: p.1, p.2))
                 else if c3 = '\x7d' then some ([(⟨kcs⟩, v)], r4)
                 else none
           else none) := rfl

/-- One non-final `"key": value` member: the loop records the pair and
continues after the comma. -/
theorem objLoop_pair_more (pv : List Char → Option (Json × List Char)) (fuel : Nat)
    (k : String) (vj : Json) (next : List Char)
    (hv : pv (dumpsJson vj ++ ',' :: '"' :: next) =
      some (vj, ',' :: '"' :: next))
    (hsw : skipWs (dumpsJson vj ++ ',' :: '"' :: next) =
      dumpsJson vj ++ ',' :: '"' :: next) :
    objItemsLoop pv (fuel + 1)
        ('"' :: (encBody k.data ++ '"' :: ':' :: (dumpsJson vj ++ ',' :: '"' :: next))) =
      (objItemsLoop pv fuel ('"' :: next)).map (fun p => ((k, vj) :: p.1, p.2)) := by
  rw [objLoop_dispatch]
  have hk := parseStringBody_encBody k.data (':' :: (dumpsJson vj ++ ',' :: '"' :: next))
    ((encBody k.data ++ '"' :: ':' :: (dumpsJson vj ++ ',' :: '"' :: next)).length + 1)
    (by
      have := encBody_length k.data
      simp only [List.length_append, List.length_cons]
      omega)
  have hswc : ∀ x : List Char, skipWs (':' :: x) = ':' :: x :=
    fun x => skipWs_no ':' x (by decide)
  have hswm : ∀ x : List Char, skipWs (',' :: x) = ',' :: x :=
    fun x => skipWs_no ',' x (by decide)
  have hswq : ∀ x : List Char, skipWs ('"' :: x) = '"' :: x :=
    fun x => skipWs_no '"' x (by decide)
  have hke : (⟨k.data⟩ : String) = k := rfl
  rw [hk]
  simp [hswc, hsw, hv, hswm, hswq, hke]

/-- The final `"key": value` member before the closing brace. -/
theorem objLoop_pair_last (pv : List Char → Option (Json × List Char)) (fuel : Nat)
    (k : String) (vj : Json) (r4 : List Char)
    (hv : pv (dumpsJson vj ++ '\x7d' :: r4) = some (vj, '\x7d' :: r4))
    (hsw : skipWs (dumpsJson vj ++ '\x7d' :: r4) = dumpsJson vj ++ '\x7d' :: r4) :
    objItemsLoop pv (fuel + 1)
        ('"' :: (encBody k.data ++ '"' :: ':' :: (dumpsJson vj ++ '\x7d' :: r4))) =
      some ([(k, vj)], r4) := by
  rw [objLoop_dispatch]
  have hk := parseStringBody_encBody k.data (':' :: (dumpsJson vj ++ '\x7d' :: r4))
    ((encBody k.data ++ '"' :: ':' :: (dumpsJson vj ++ '\x7d' :: r4)).length + 1)
    (by
      have := encBody_length k.data
      simp only [List.length_append, List.length_cons]
      omega)
  have hswc : ∀ x : List Char, skipWs (':' :: x) = ':' :: x :=
    fun x => skipWs_no ':' x (by decide)
  have hswb : ∀ x : List Char, skipWs ('\x7d' :: x) = '\x7d' :: x :=
    fun x => skipWs_no '\x7d' x (by decide)
  have hke : (⟨k.data⟩ : String) = k := rfl
  rw [hk]
  simp [hswc, hsw, hv, hswb, hke]

/-- A serialized string value parses back as a value, with any fuel. -/
theorem pv_dumps_str (s : String) (tail : List Char) (g : Nat) :
    parseJsonValue (g + 1) (dumpsJson (Json.str s) ++ tail) = some (Json.str s, tail) := by
  rw [(show dumpsJson (Json.str s) = encStr s from rfl), encStr_cons]
  exact pv_str s tail g

/-- A serialized string value starts with a quote. -/
theorem skipWs_dumps_str (s : String) (tail : List Char) :
    skipWs (dumpsJson (Json.str s) ++ tail) = dumpsJson (Json.str s) ++ tail := by
  rw [(show dumpsJson (Json.str s) = encStr s from rfl), encStr_cons]
  exact skipWs_no _ _ (by decide)

/-- A serialized array value in front of a continuation, head-normal. -/
theorem dumpsJson_arr_append (l : List Json) (tail : List Char) :
    dumpsJson (Json.arr l) ++ tail = '[' :: (dumpsArr l ++ ']' :: tail) := by
  simp [dumpsJson, List.append_assoc]

/-- A serialized array value starts with a bracket. -/
theorem skipWs_dumps_arr (l : List Json) (tail : List Char) :
    skipWs (dumpsJson (Json.arr l) ++ tail) = dumpsJson (Json.arr l) ++ tail := by
  rw [dumpsJson_arr_append]
  exact skipWs_no _ _ (by decide)

/-- The member loop reads back the three serialized fields of a
`SalesAngle` object. -/
theorem objLoop_angle (a : SalesAngle) (rest : List Char) (g fuel : Nat)
    (hf : 2 < fuel) :
    objItemsLoop (parseJsonValue (g + 1)) fuel
        ('"' :: (encBody ("avatar_name").data ++ '"' :: ':' ::
          (dumpsJson (Json.str a.avatar_name) ++ ',' :: '"' ::
          (encBody ("pain_point_addressed").data ++ '"' :: ':' ::
          (dumpsJson (Json.str a.pain_point_addressed) ++ ',' :: '"' ::
          (encBody ("persuasive_copy").data ++ '"' :: ':' ::
          (dumpsJson (Json.str a.persuasive_copy) ++ '\x7d' :: rest))))))) =
      some ([(("avatar_name"), Json.str a.avatar_name),
             (("pain_point_addressed"), Json.str a.pain_point_addressed),
             (("persuasive_copy"), Json.str a.persuasive_copy)], rest) := by
  obtain ⟨f, rfl⟩ : ∃ f, fuel = f + 3 := ⟨fuel - 3, by omega⟩
  rw [(show f + 3 = (f + 2) + 1 from rfl)]
  rw [objLoop_pair_more (parseJsonValue (g + 1)) (f + 2) ("avatar_name")
    (Json.str a.avatar_name) _ (pv_dumps_str _ _ _) (skipWs_dumps_str _ _)]
  rw [(show f + 2 = (f + 1) + 1 from rfl)]
  rw [objLoop_pair_more (parseJsonValue (g + 1)) (f + 1) ("pain_point_addressed")
    (Json.str a.pain_point_addressed) _ (pv_dumps_str _ _ _) (skipWs_dumps_str _ _)]
  rw [objLoop_pair_last (parseJsonValue (g + 1)) f ("persuasive_copy")
    (Json.str a.persuasive_copy) _ (pv_dumps_str _ _ _) (skipWs_dumps_str _ _)]
  rfl

/-- Reading a non-empty serialized object through the value parser reduces
to running the member loop on its body. -/
theorem pv_obj_quote (fuel : Nat) (b : List Char) (ps : List (String × Json))
    (rest : List Char)
    (h : ∀ floop, b.length < floop →
      objItemsLoop (parseJsonValue (fuel + 1)) floop ('"' :: b) = some (ps, rest)) :
    parseJsonValue (fuel + 2) ('\x7b' :: '"' :: b) = some (Json.obj ps, rest) := by
  rw [pv_obj_dispatch]
  rw [skipWs_no '"' _ (by decide)]
  have hh := h (b.length + 1 + 1) (by omega)
  simp [hh]

/-- The value parser reads back a serialized `SalesAngle` object. -/
theorem pv_angle (a : SalesAngle) (rest : List Char) (fuel : Nat) :
    parseJsonValue (fuel + 2) (dumpsJson a.toJson ++ rest) = some (a.toJson, rest) := by
  have e1 : ∀ ps, dumpsJson (Json.obj ps) = '\x7b' :: dumpsObj ps ++ ['\x7d'] :=
    fun _ => rfl
  have e2 : ∀ (p q : String × Json) (rs : List (String × Json)),
      dumpsObj (p :: q :: rs) =
        encStr p.1 ++ ':' :: dumpsJson p.2 ++ ',' :: dumpsObj (q :: rs) :=
    fun _ _ _ => rfl
  have e3 : ∀ (p : String × Json), dumpsObj [p] = encStr p.1 ++ ':' :: dumpsJson p.2 :=
    fun _ => rfl
  simp only [SalesAngle.toJson, e1, e2, e3, encStr_cons, List.cons_append,
    List.append_assoc, List.nil_append]
  rw [(show ['a', 'v', 'a', 't', 'a', 'r', '_', 'n', 'a', 'm', 'e'] =
      ("avatar_name").data from rfl),
    (show ['p', 'a', 'i', 'n', '_', 'p', 'o', 'i', 'n', 't', '_', 'a', 'd', 'd', 'r',
      'e', 's', 's', 'e', 'd'] = ("pain_point_addressed").data from rfl),
    (show ['p', 'e', 'r', 's', 'u', 'a', 's', 'i', 'v', 'e', '_', 'c', 'o', 'p', 'y'] =
      ("persuasive_copy").data from rfl)]
  apply pv_obj_quote
  intro floop hlt
  apply objLoop_angle a rest fuel floop
  have h11 : (("avatar_name").data).length = 11 := rfl
  have he := encBody_length (("avatar_name").data)
  simp only [List.length_append, List.length_cons] at hlt
  omega

/-- Splitting a serialized array at its first element. -/
theorem dumpsArr_cons_split (v : Json) (l : List Json) (r : List Char) :
    dumpsArr (v :: l) ++ r = dumpsJson v ++ arrTail l r := by
  cases l with
  | nil => simp [dumpsArr, arrTail]
  | cons u t2 => simp [dumpsArr, arrTail, List.append_assoc]

/-- A serialized `SalesAngle` object starts with a brace. -/
theorem skipWs_dumps_angle (b : SalesAngle) (tail : List Char) :
    skipWs (dumpsJson (SalesAngle.toJson b) ++ tail) =
      dumpsJson (SalesAngle.toJson b) ++ tail := by
  have hsplit : dumpsJson (SalesAngle.toJson b) ++ tail =
      '\x7b' :: (dumpsObj
        [(("avatar_name"), Json.str b.avatar_name),
         (("pain_point_addressed"), Json.str b.pain_point_addressed),
         (("persuasive_copy"), Json.str b.persuasive_copy)] ++ '\x7d' :: tail) := by
    simp [SalesAngle.toJson, dumpsJson, List.append_assoc]
  rw [hsplit]
  exact skipWs_no _ _ (by decide)

/-- An array of serialized angle objects is at least as long as the list. -/
theorem dumpsArr_angles_length (l : List SalesAngle) :
    l.length ≤ (dumpsArr (l.map SalesAngle.toJson)).length := by
  induction l with
  | nil => simp [dumpsArr]
  | cons a t ih =>
    cases t with
    | nil => simp [dumpsArr, SalesAngle.toJson, dumpsJson]
    | cons b t2 =>
      simp only [List.map_cons, dumpsArr, SalesAngle.toJson, dumpsJson,
        List.length_append, List.length_cons, List.map_cons] at ih ⊢
      omega

/-- The array continuation is at least as long as the remaining element
list when the elements are serialized angle objects. -/
theorem arrTail_angles_length (t : List SalesAngle) (r : List Char) :
    t.length ≤ (arrTail (t.map SalesAngle.toJson) r).length := by
  cases t with
  | nil => simp [arrTail]
  | cons u t2 =>
    have := dumpsArr_angles_length (u :: t2)
    simp only [arrTail, List.map_cons, List.length_cons, List.length_append] at this ⊢
    omega

/-- The element loop reads back a non-empty serialized angle array. -/
theorem arrItems_angles (l : List SalesAngle) :
    ∀ (a : SalesAngle) (rest : List Char) (g fuel : Nat), l.length < fuel →
      arrItemsLoop (parseJsonValue (g + 2)) fuel
          (dumpsArr ((a :: l).map SalesAngle.toJson) ++ ']' :: rest) =
        some ((a :: l).map SalesAngle.toJson, rest) := by
  induction l with
  | nil =>
    intro a rest g fuel hf
    obtain ⟨f, rfl⟩ : ∃ f, fuel = f + 1 := ⟨fuel - 1, by omega⟩
    rw [List.map_cons, List.map_nil, dumpsArr_cons_split]
    simp only [arrTail]
    simp only [arrItemsLoop, pv_angle]
    rw [skipWs_no ']' rest (by decide)]
    simp
  | cons b t ih =>
    intro a rest g fuel hf
    obtain ⟨f, rfl⟩ : ∃ f, fuel = f + 1 := ⟨fuel - 1, by omega⟩
    have hft : t.length < f := by
      simp only [List.length_cons] at hf
      omega
    rw [List.map_cons, List.map_cons, dumpsArr_cons_split]
    simp only [arrTail]
    simp only [arrItemsLoop, pv_angle]
    rw [skipWs_no ',' _ (by decide)]
    have hre := ih b rest g f hft
    simp only [List.map_cons] at hre
    have hsw : skipWs (dumpsArr (SalesAngle.toJson b :: t.map SalesAngle.toJson) ++
        ']' :: rest) =
        dumpsArr (SalesAngle.toJson b :: t.map SalesAngle.toJson) ++ ']' :: rest := by
      rw [dumpsArr_cons_split]
      exact skipWs_dumps_angle b _
    simp [hsw, hre]

/-- The value parser reads back a serialized angle array. -/
theorem pv_arr_angles (l : List SalesAngle) (rest : List Char) (fuel : Nat) :
    parseJsonValue (fuel + 3) ('[' :: (dumpsArr (l.map SalesAngle.toJson) ++ ']' :: rest)) =
      some (Json.arr (l.map SalesAngle.toJson), rest) := by
  cases l with
  | nil =>
    simp only [List.map_nil, dumpsArr, List.nil_append]
    rw [(show fuel + 3 = (fuel + 1) + 2 from rfl), pv_arr_dispatch,
      skipWs_no ']' rest (by decide)]
    simp
  | cons a t =>
    have hcons : dumpsArr (SalesAngle.toJson a :: t.map SalesAngle.toJson) ++ ']' :: rest =
        '\x7b' :: (dumpsObj
          [(("avatar_name"), Json.str a.avatar_name),
           (("pain_point_addressed"), Json.str a.pain_point_addressed),
           (("persuasive_copy"), Json.str a.persuasive_copy)] ++ '\x7d' ::
          arrTail (t.map SalesAngle.toJson) (']' :: rest)) := by
      rw [dumpsArr_cons_split]
      simp [SalesAngle.toJson, dumpsJson, List.append_assoc]
    have hlen : t.length <
        ('\x7b' :: (dumpsObj
          [(("avatar_name"), Json.str a.avatar_name),
           (("pain_point_addressed"), Json.str a.pain_point_addressed),
           (("persuasive_copy"), Json.str a.persuasive_copy)] ++ '\x7d' ::
          arrTail (t.map SalesAngle.toJson) (']' :: rest))).length + 1 := by
      have := arrTail_angles_length t (']' :: rest)
      simp only [List.length_cons, List.length_append]
      omega
    have harr := arrItems_angles t a rest fuel
      (('\x7b' :: (dumpsObj
        [(("avatar_name"), Json.str a.avatar_name),
         (("pain_point_addressed"), Json.str a.pain_point_addressed),
         (("persuasive_copy"), Json.str a.persuasive_copy)] ++ '\x7d' ::
        arrTail (t.map SalesAngle.toJson) (']' :: rest))).length + 1)
      hlen
    simp only [List.map_cons] at harr
    rw [hcons] at harr
    have hfe : ('\x7b' :: (dumpsObj
        [(("avatar_name"), Json.str a.avatar_name),
         (("pain_point_addressed"), Json.str a.pain_point_addressed),
         (("persuasive_copy"), Json.str a.persuasive_copy)] ++ '\x7d' ::
        arrTail (t.map SalesAngle.toJson) (']' :: rest))).length + 1 =
        (dumpsObj
          [(("avatar_name"), Json.str a.avatar_name),
           (("pain_point_addressed"), Json.str a.pain_point_addressed),
           (("persuasive_copy"), Json.str a.persuasive_copy)]).length +
          ((arrTail (t.map SalesAngle.toJson) (']' :: rest)).length + 1) + 1 + 1 := by
      simp only [List.length_cons, List.length_append]
    rw [hfe] at harr
    have hsw : skipWs (dumpsArr (SalesAngle.toJson a :: t.map SalesAngle.toJson) ++
        ']' :: rest) =
        dumpsArr (SalesAngle.toJson a :: t.map SalesAngle.toJson) ++ ']' :: rest := by
      rw [dumpsArr_cons_split]
      exact skipWs_dumps_angle a _
    simp only [List.map_cons]
    rw [(show fuel + 3 = (fuel + 1) + 2 from rfl), pv_arr_dispatch, hsw, hcons]
    simp [harr]

/-- The member loop reads back the two serialized fields of a
`StrategyOutput` object. -/
theorem objLoop_strategy (so : StrategyOutput) (rest : List Char) (fuel floop : Nat)
    (hf : 1 < floop) :
    objItemsLoop (parseJsonValue (fuel + 3)) floop
        ('"' :: (encBody ("main_pain_points").data ++ '"' :: ':' ::
          (dumpsJson (Json.arr (so.main_pain_points.map Json.str)) ++ ',' :: '"' ::
          (encBody ("sales_angles").data ++ '"' :: ':' ::
          (dumpsJson (Json.arr (so.sales_angles.map SalesAngle.toJson)) ++
            '\x7d' :: rest))))) =
      some ([(("main_pain_points"), Json.arr (so.main_pain_points.map Json.str)),
             (("sales_angles"), Json.arr (so.sales_angles.map SalesAngle.toJson))],
            rest) := by
  obtain ⟨f, rfl⟩ : ∃ f, floop = f + 2 := ⟨floop - 2, by omega⟩
  have hv1 : ∀ tail, parseJsonValue (fuel + 3)
      (dumpsJson (Json.arr (so.main_pain_points.map Json.str)) ++ tail) =
      some (Json.arr (so.main_pain_points.map Json.str), tail) := by
    intro tail
    rw [dumpsJson_arr_append]
    exact pv_arr_strs so.main_pain_points tail (fuel + 1)
  have hv2 : ∀ tail, parseJsonValue (fuel + 3)
      (dumpsJson (Json.arr (so.sales_angles.map SalesAngle.toJson)) ++ tail) =
      some (Json.arr (so.sales_angles.map SalesAngle.toJson), tail) := by
    intro tail
    rw [dumpsJson_arr_append]
    exact pv_arr_angles so.sales_angles tail fuel
  rw [(show f + 2 = (f + 1) + 1 from rfl)]
  rw [objLoop_pair_more (parseJsonValue (fuel + 3)) (f + 1) ("main_pain_points")
    (Json.arr (so.main_pain_points.map Json.str)) _ (hv1 _) (skipWs_dumps_arr _ _)]
  rw [objLoop_pair_last (parseJsonValue (fuel + 3)) f ("sales_angles")
    (Json.arr (so.sales_angles.map SalesAngle.toJson)) _ (hv2 _) (skipWs_dumps_arr _ _)]
  rfl

/-- The value parser reads back a serialized `StrategyOutput` object. -/
theorem pv_strategy (so : StrategyOutput) (rest : List Char) (fuel : Nat) :
    parseJsonValue (fuel + 4) (dumpsJson so.toJson ++ rest) = some (so.toJson, rest) := by
  have e1 : ∀ ps, dumpsJson (Json.obj ps) = '\x7b' :: dumpsObj ps ++ ['\x7d'] :=
    fun _ => rfl
  have e2 : ∀ (p q : String × Json) (rs : List (String × Json)),
      dumpsObj (p :: q :: rs) =
        encStr p.1 ++ ':' :: dumpsJson p.2 ++ ',' :: dumpsObj (q :: rs) :=
    fun _ _ _ => rfl
  have e3 : ∀ (p : String × Json), dumpsObj [p] = encStr p.1 ++ ':' :: dumpsJson p.2 :=
    fun _ => rfl
  simp only [StrategyOutput.toJson, e1, e2, e3, encStr_cons, List.cons_append,
    List.append_assoc, List.nil_append]
  rw [(show ['m', 'a', 'i', 'n', '_', 'p', 'a', 'i', 'n', '_', 'p', 'o', 'i', 'n',
      't', 's'] = ("main_pain_points").data from rfl),
    (show ['s', 'a', 'l', 'e', 's', '_', 'a', 'n', 'g', 'l', 'e', 's'] =
      ("sales_angles").data from rfl)]
  rw [(show fuel + 4 = (fuel + 2) + 2 from rfl)]
  apply pv_obj_quote
  intro floop hlt
  apply objLoop_strategy so rest fuel floop
  have h16 : (("main_pain_points").data).length = 16 := rfl
  have he := encBody_length (("main_pain_points").data)
  simp only [List.length_append, List.length_cons] at hlt
  omega

/-- `json.loads` reads back the serialized `StrategyOutput` in full. -/
theorem parseJson_dump (so : StrategyOutput) :
    parseJson so.model_dump_json = some so.toJson := by
  unfold parseJson StrategyOutput.model_dump_json
  rw [(show ((⟨dumpsJson so.toJson⟩ : String)).data = dumpsJson so.toJson from rfl),
    (show ((⟨dumpsJson so.toJson⟩ : String)).length = (dumpsJson so.toJson).length
      from rfl)]
  have hsw : skipWs (dumpsJson so.toJson) = dumpsJson so.toJson := by
    rw [(show dumpsJson so.toJson = '\x7b' :: (dumpsObj
      [(("main_pain_points"), Json.arr (so.main_pain_points.map Json.str)),
       (("sales_angles"), Json.arr (so.sales_angles.map SalesAngle.toJson))] ++
      ['\x7d']) from rfl)]
    exact skipWs_no _ _ (by decide)
  rw [hsw]
  have hfe : 10 * (dumpsJson so.toJson).length + 10 =
      (10 * (dumpsJson so.toJson).length + 6) + 4 := by omega
  rw [hfe]
  have hp := pv_strategy so [] (10 * (dumpsJson so.toJson).length + 6)
  rw [List.append_nil] at hp
  rw [hp]
  rfl

/-- String list elements validate back to themselves. -/
theorem validateStrElems_map (path : String) (l : List String) :
    validateStrElems path (l.map Json.str) = Except.ok l := by
  induction l with
  | nil => rfl
  | cons a t ih => simp [validateStrElems, validateStr, ih]

/-- A `SalesAngle`'s JSON form validates back to the record itself. -/
theorem validateAngle_toJson (a : SalesAngle) :
    SalesAngle.model_validate a.toJson = Except.ok a :=
  (salesAngle_ok_iff _ _).mpr ⟨_, rfl, rfl, rfl, rfl⟩

/-- Angle list elements validate back to themselves. -/
theorem validateAngleElems_map (l : List SalesAngle) :
    validateAngleElems (l.map SalesAngle.toJson) = Except.ok l := by
  induction l with
  | nil => rfl
  | cons a t ih => simp [validateAngleElems, validateAngle_toJson, ih]

/-- A `StrategyOutput`'s JSON form validates back to the record itself. -/
theorem model_validate_toJson (so : StrategyOutput) :
    StrategyOutput.model_validate so.toJson = Except.ok so := by
  apply (strategyOutput_ok_iff _ _).mpr
  refine ⟨_, _, _, rfl, rfl, ?_, rfl, ?_⟩
  · simp [validateStrList, validateStrElems_map]
  · simp [validateAngleList, validateAngleElems_map]

/-- C7: round-trip — serializing any well-formed `StrategyOutput` to JSON
and feeding the text back through the Response Validator (parse with
`json.loads`, then `StrategyOutput.model_validate`) succeeds and returns a
record structurally equal to the original. -/
theorem strategy_output_roundtrip (so : StrategyOutput) :
    validateResponse so.model_dump_json = Except.ok so := by
  simp only [validateResponse, parseJson_dump so, model_validate_toJson so]
